import Mathlib

/-!
Verification development for the fastopsz table-retrieval core.

The Python sources are shallowly embedded as Lean definitions:

* `joinability_sheriff.py` — `generate_singles`, `generate_pairs`,
  `generate_chains`, `generate_combinations` (FK-based candidate generator);
* `schema_scout.py` — `find_score_elbow` and the validation / cutoff part of
  `search_tables` (retriever);
* `graph_ranker.py` — `extract_keywords_simple`, `calculate_column_coverage`,
  `calculate_heuristic_score`, `get_historical_success`, `heuristic_filter`,
  `enrich_with_metadata`, `rank_with_model`, `graph_ranker` (two-phase ranker);
* `inference_api.py` — the return value of `QueryScorePredictor.predict`.

Conventions: Python floats are modelled as `ℚ`; Python dicts that are used as
ordered maps are modelled as association lists in insertion order; fallible
code (dict subscripting that can raise `KeyError`, attribute access that can
raise `AttributeError`, `float(...)` that can raise `ValueError`) is modelled
in `Except PyErr`.  Python's stable `sorted(..., key=k, reverse=True)` is
modelled by a stable insertion sort (`sort_le` / `sortByScoreDesc`); any two
stable sorts of the same list under the same key agree, so this is a faithful
extensional model of CPython's timsort-based `sorted`.
-/

namespace Fastopsz

/-- A stable insertion sort: `insert_le le x l` puts `x` in front of the first
element `y` with `le x y`.  When `l` is the already-sorted tail and `x` occurs
before the elements of `l` in the input, the element `x` ends up before every
equal element, which is exactly CPython's stability guarantee. -/
def insert_le {α : Type} (le : α → α → Bool) (x : α) : List α → List α
  | [] => [x]
  | y :: ys => if le x y then x :: y :: ys else y :: insert_le le x ys

/-- Stable insertion sort with respect to the boolean relation `le`. -/
def sort_le {α : Type} (le : α → α → Bool) : List α → List α
  | [] => []
  | x :: xs => insert_le le x (sort_le le xs)

/-- Python's `sorted(l, key=key, reverse=True)`: stable descending sort by a
rational-valued key. An earlier element `x` stays before a later element `y`
exactly when `key y ≤ key x` (so equal keys keep input order). -/
def sortByScoreDesc {α : Type} (key : α → ℚ) (l : List α) : List α :=
  sort_le (fun a b => key b ≤ key a) l

/- ### Data model of the candidate generator (`joinability_sheriff.py`) -/

/-- One entry of `selected_tables`, as handed from Schema Scout to
`JoinabilitySheriff.generate_combinations`. -/
structure SelectedTable where
  connection_id : String
  table_name : String
  similarity_score : ℚ
deriving DecidableEq

/-- One `join_paths` entry of a combination: a directed FK edge with its
column lists, as emitted by `generate_pairs` / `generate_chains`. -/
structure JoinPath where
  from_table : String
  to_table : String
  from_columns : List String
  to_columns : List String
deriving DecidableEq

/-- The value stored in the FK adjacency for one `(from_table, to_table)`
key pair, as produced by `MetadataStore.get_fk_map`. -/
structure FKInfo where
  from_columns : List String
  to_columns : List String
  confidence : ℚ
  source : String
deriving DecidableEq

/-- The nested-dict FK adjacency `{from_table: {to_table: fk_info}}` returned
by `MetadataStore.get_fk_map`, modelled as an association list in insertion
order (Python dict keys are unique and iterate in insertion order). -/
abbrev FKMap : Type := List (String × List (String × FKInfo))

/-- Dict membership / subscripting `fk_map[table]` (first matching key; on a
Python dict keys are unique so this is exact). -/
def lookupFK (fk_map : FKMap) (table : String) : Option (List (String × FKInfo)) :=
  (fk_map.find? (fun e => e.1 == table)).map (fun e => e.2)

/-- A combination dict as built by the Joinability Sheriff. -/
structure Combination where
  tables : List String
  similarity_score : ℚ
  connection_id : String
  join_paths : List JoinPath
  complexity : Nat
deriving DecidableEq

/-- The Python dict-comprehension `table_scores = {t["table_name"]:
t["similarity_score"] for t in selected_tables}` followed by subscripting:
a later duplicate key overwrites an earlier one, hence the lookup on the
reversed list. The default `0` is never reached by the generator, which only
looks up names drawn from `selected_tables`. -/
def table_score (selected_tables : List SelectedTable) (name : String) : ℚ :=
  ((selected_tables.reverse.find? (fun t => t.table_name == name)).map
    (fun t => t.similarity_score)).getD 0

/-- The connection id `selected_tables[0]["connection_id"]` read by
`generate_pairs` / `generate_chains`; the default is never reached because
both are only called on a non-empty selection. -/
def head_connection_id (selected_tables : List SelectedTable) : String :=
  ((selected_tables.head?).map (fun t => t.connection_id)).getD ""

/-- `JoinabilitySheriff.generate_singles`: one complexity-1 combination per
selected table, empty join paths, the table's own similarity score. -/
def generate_singles (selected_tables : List SelectedTable) : List Combination :=
  selected_tables.map fun t =>
    { tables := [t.table_name]
      similarity_score := t.similarity_score
      connection_id := t.connection_id
      join_paths := []
      complexity := 1 }

/-- `JoinabilitySheriff.generate_pairs`: for every directed FK edge with both
endpoints among the selected table names, a complexity-2 combination whose
score is the mean of the endpoint scores; the result is sorted descending by
score (`sorted(..., key=score, reverse=True)`). -/
def generate_pairs (selected_tables : List SelectedTable) (fk_map : FKMap) :
    List Combination :=
  let table_names := selected_tables.map (fun t => t.table_name)
  let connection_id := head_connection_id selected_tables
  let combinations := fk_map.flatMap fun e1 =>
    if table_names.contains e1.1 then
      e1.2.flatMap fun e2 =>
        if table_names.contains e2.1 then
          [{ tables := [e1.1, e2.1]
             similarity_score :=
               (table_score selected_tables e1.1 + table_score selected_tables e2.1) / 2
             connection_id := connection_id
             join_paths := [{ from_table := e1.1, to_table := e2.1,
                              from_columns := e2.2.from_columns,
                              to_columns := e2.2.to_columns }]
             complexity := 2 }]
        else []
    else []
  sortByScoreDesc (fun c => c.similarity_score) combinations

/-- `JoinabilitySheriff.generate_chains`: compose two directed FK edges
`t1 → t2 → t3` with all three tables among the selected names, skipping only
`t3 == t1` ("Avoid cycles: table3 shouldn't be table1"); the result is sorted
descending by score. There is no filter for `t3 == t2`. -/
def generate_chains (selected_tables : List SelectedTable) (fk_map : FKMap) :
    List Combination :=
  let table_names := selected_tables.map (fun t => t.table_name)
  let connection_id := head_connection_id selected_tables
  let combinations := fk_map.flatMap fun e1 =>
    if table_names.contains e1.1 then
      e1.2.flatMap fun e2 =>
        if table_names.contains e2.1 then
          match lookupFK fk_map e2.1 with
          | none => []
          | some targets2 =>
            targets2.flatMap fun e3 =>
              if table_names.contains e3.1 then
                if e3.1 == e1.1 then []
                else
                  [{ tables := [e1.1, e2.1, e3.1]
                     similarity_score :=
                       (table_score selected_tables e1.1 +
                        table_score selected_tables e2.1 +
                        table_score selected_tables e3.1) / 3
                     connection_id := connection_id
                     join_paths :=
                       [{ from_table := e1.1, to_table := e2.1,
                          from_columns := e2.2.from_columns,
                          to_columns := e2.2.to_columns },
                        { from_table := e2.1, to_table := e3.1,
                          from_columns := e3.2.from_columns,
                          to_columns := e3.2.to_columns }]
                     complexity := 3 }]
              else []
        else []
    else []
  sortByScoreDesc (fun c => c.similarity_score) combinations

/-- The two metadata dict shapes returned by `generate_combinations`. -/
inductive GenMetadata where
  | multi_connection (error : String) (connection_ids : List String)
  | single_connection (total_combinations : Nat) (connection_id : String)
      (fk_relationships_found : Nat)
deriving DecidableEq

/-- The `{"combinations": ..., "metadata": ...}` result dict. -/
structure GenResult where
  combinations : List Combination
  metadata : GenMetadata
deriving DecidableEq

/-- The error message of the multi-connection branch. -/
def multi_conn_error_msg : String :=
  "Tables from multiple databases. Only singles returned."

/-- `JoinabilitySheriff.generate_combinations`.  The metadata store is the
parameter `get_fk_map` (the call `self.metadata_store.get_fk_map(...)`).
`set(t["connection_id"] for t in selected_tables)` is modelled by `dedup` on
the mapped list (only its cardinality and membership are consumed).  On an
empty selection `list(connection_ids)[0]` raises `IndexError`, modelled as
`none`.  The 30-cap (`combinations[:30]`) is applied only in the
single-connection branch, exactly as in the source. -/
def generate_combinations (get_fk_map : String → List String → FKMap)
    (selected_tables : List SelectedTable) : Option GenResult :=
  let connection_ids := (selected_tables.map (fun t => t.connection_id)).dedup
  if connection_ids.length > 1 then
    some { combinations := generate_singles selected_tables
           metadata := .multi_connection multi_conn_error_msg connection_ids }
  else
    match connection_ids with
    | [] => none
    | connection_id :: _ =>
      let table_names := selected_tables.map (fun t => t.table_name)
      let fk_map := get_fk_map connection_id table_names
      let combinations := generate_singles selected_tables
      let combinations :=
        if fk_map.isEmpty then combinations
        else combinations ++ generate_pairs selected_tables fk_map
                          ++ generate_chains selected_tables fk_map
      let combinations :=
        if combinations.length > 30 then combinations.take 30 else combinations
      some { combinations := combinations
             metadata := .single_connection combinations.length connection_id
               fk_map.length }

/- ### Retriever (`schema_scout.py`) -/

/-- One Milvus hit consumed by `SchemaScout.search_tables`: the entity fields
requested via `output_fields` plus the cosine `distance` used as similarity
score. -/
structure SearchHit where
  connection_id : String
  table_name : String
  schema_hash : String
  distance : ℚ
deriving DecidableEq

/-- The value of `MetadataStore.get_table_schema`: the stored hash plus the
schema payload (opaque here). `get_table_schema` yields `none` when the
`table_metadata` row is absent. -/
structure CachedSchema where
  hash : String
  schema : String
deriving DecidableEq

/-- A validated hit as assembled in step 4 of `search_tables`. -/
structure ValidatedTable where
  connection_id : String
  table_name : String
  similarity_score : ℚ
  schema : String
deriving DecidableEq

/-- An entry of `tables_to_resync`, queued for the background resync job. -/
structure ResyncRequest where
  connection_id : String
  table_name : String
deriving DecidableEq

/-- Step 4 of `SchemaScout.search_tables`: split the hits into validated
results (stored hash matches the hit's hash) and resync requests (hash
mismatch, or the metadata store yields no schema for the hit), preserving hit
order in both output lists. -/
def validate_hits (get_table_schema : String → String → Option CachedSchema) :
    List SearchHit → List ValidatedTable × List ResyncRequest
  | [] => ([], [])
  | hit :: rest =>
    let tail := validate_hits get_table_schema rest
    match get_table_schema hit.connection_id hit.table_name with
    | some cached =>
      if cached.hash = hit.schema_hash then
        (⟨hit.connection_id, hit.table_name, hit.distance, cached.schema⟩ :: tail.1,
         tail.2)
      else
        (tail.1, ⟨hit.connection_id, hit.table_name⟩ :: tail.2)
    | none => (tail.1, ⟨hit.connection_id, hit.table_name⟩ :: tail.2)

/-- The `drops` list of `SchemaScout.find_score_elbow`, built by the loop
`for i in range(len(scores)-1): drops.append(scores[i] - scores[i+1])`. -/
def score_drops (scores : List ℚ) : List ℚ :=
  (List.range (scores.length - 1)).map (fun i => scores[i]! - scores[i + 1]!)

/-- `SchemaScout.find_score_elbow`: with fewer than 3 scores return the count;
otherwise take the index of the first maximal consecutive drop
(`drops.index(max(drops))`; `drops` is non-empty here, so the `getD` default
is never consulted), add 1, and map the result into the bands `≤5 → 5`,
`≤10 → 10`, `else → 15`. -/
def find_score_elbow (scores : List ℚ) : Nat :=
  if scores.length < 3 then scores.length
  else
    let drops := score_drops scores
    let max_drop_idx := drops.indexOf (drops.max?.getD 0)
    let elbow_point := max_drop_idx + 1
    if elbow_point ≤ 5 then 5
    else if elbow_point ≤ 10 then 10
    else 15

/-- The two result-dict shapes of `search_tables`: the early
`{"tables": [], "k": 0}` return for zero validated hits, and the full result. -/
inductive SearchResult where
  | empty
  | found (tables : List ValidatedTable) (k : Nat) (total_searched : Nat)
      (stale_embeddings : Nat)
deriving DecidableEq

/-- Steps 4-6 of `SchemaScout.search_tables` (validation and cutoff selection;
embedding and the Milvus query are upstream collaborators, the hits list is
their output). The cutoff is `find_score_elbow` on the validated scores,
clamped by `k = max(5, min(15, k))`, and the validated list is truncated to
`k` entries. -/
def search_tables (get_table_schema : String → String → Option CachedSchema)
    (hits : List SearchHit) : SearchResult :=
  let validated_results := (validate_hits get_table_schema hits).1
  let tables_to_resync := (validate_hits get_table_schema hits).2
  if validated_results.length = 0 then .empty
  else
    let scores := validated_results.map (fun t => t.similarity_score)
    let k := find_score_elbow scores
    let k := max 5 (min 15 k)
    .found (validated_results.take k) k hits.length tables_to_resync.length

/- ### Python values and exceptions for the ranker -/

/-- The Python exceptions that the ranker's code paths can raise. -/
inductive PyErr where
  | keyError (key : String)
  | attributeError (msg : String)
  | valueError (msg : String)
deriving DecidableEq

/-- A Python value of interest to `rank_with_model`'s post-processing: the
scoring collaborator either hands back a float (as
`QueryScorePredictor.predict` actually does) or a string. -/
inductive PyVal where
  | pyFloat (val : ℚ)
  | pyStr (val : String)
deriving DecidableEq

/-- Python `str.lower()` (character-wise, as CPython does for ASCII). -/
def py_lower (s : String) : String := String.mk (s.toList.map Char.toLower)

/-- Python `str.strip()`: drop whitespace from both ends. -/
def py_strip_str (s : String) : String :=
  String.mk (((s.toList.dropWhile Char.isWhitespace).reverse.dropWhile
    Char.isWhitespace).reverse)

/-- Python `int(s)` on a run of decimal digits (`None` otherwise). -/
def digits_to_nat? (cs : List Char) : Option Nat :=
  if cs ≠ [] ∧ cs.all Char.isDigit then
    some (cs.foldl (fun n c => n * 10 + (c.toNat - 48)) 0)
  else none

/-- Python attribute access `v.strip()`: defined on strings (whitespace
strip), an `AttributeError` on floats. -/
def py_strip : PyVal → Except PyErr String
  | .pyStr s => .ok (py_strip_str s)
  | .pyFloat _ => .error (.attributeError "float object has no attribute strip")

/-- A decimal-literal fragment of Python's `float(...)` parser — enough for
the score strings relevant here ("0.5", "1", ...); anything else is a
`ValueError`, as in Python. -/
def parse_decimal (s : String) : Option ℚ :=
  match s.toList.splitOnP (fun c => c == '.') with
  | [w] => (digits_to_nat? w).map (fun n => (n : ℚ))
  | [w, f] =>
    match digits_to_nat? w, digits_to_nat? f with
    | some a, some b => some ((a : ℚ) + (b : ℚ) / ((10 : ℚ) ^ f.length))
    | _, _ => none
  | _ => none

/-- Python `float(s)` on a string. -/
def py_float (s : String) : Except PyErr ℚ :=
  match parse_decimal s with
  | some q => .ok q
  | none => .error (.valueError ("could not convert string to float: " ++ s))

/-- `QueryScorePredictor.predict` in `inference_api.py` ends with
`return score.item()`: whatever rational the model computes, the value handed
back to the caller is a Python float. -/
def predictor_predict (model_score : ℚ) : PyVal := PyVal.pyFloat model_score

/- ### Ranker data model (`graph_ranker.py` / `schema_inspector.py`) -/

/-- A column dict of the standardized schema produced by
`UniversalSchemaInspector.get_sql_schema` (the unread `default` entry is
omitted as opaque payload). -/
structure ColumnInfo where
  name : String
  type : String
  nullable : Bool
deriving DecidableEq

/-- A `foreign_keys` entry of the standardized schema. -/
structure FKDecl where
  from_columns : List String
  to_table : String
  to_columns : List String
deriving DecidableEq

/-- An `indexes` entry of the standardized schema. -/
structure IndexInfo where
  name : String
  columns : List String
  unique : Bool
deriving DecidableEq

/-- The standardized per-table schema dict consumed by the ranker. -/
structure TableSchema where
  columns : List ColumnInfo
  primary_key : List String
  foreign_keys : List FKDecl
  indexes : List IndexInfo
  estimated_rows : Nat
deriving DecidableEq

/-- The ranker's `schema_metadata` dict `table_name → schema`, as an
association list. -/
abbrev SchemaMetadata : Type := List (String × TableSchema)

/-- Dict lookup `schema_metadata.get(table_name)`; `none` models a missing
key (subscripting a missing key raises `KeyError` at the call sites that do
so). -/
def lookup_schema (schema_metadata : SchemaMetadata) (table : String) :
    Option TableSchema :=
  (schema_metadata.find? (fun e => e.1 == table)).map (fun e => e.2)

/-- The stop-word set of `GraphRanker.extract_keywords_simple`. -/
def stop_words : List String :=
  ["the", "a", "an", "and", "or", "but", "in", "on", "at", "to", "for",
   "of", "with", "by", "from", "as", "is", "was", "are", "were", "been",
   "be", "have", "has", "had", "do", "does", "did", "will", "would",
   "should", "could", "may", "might", "must", "can", "get", "show", "list"]

/-- A `\w` word character of Python's `re` (ASCII view). -/
def is_word_char (c : Char) : Bool := c.isAlphanum || c == '_'

/-- `GraphRanker.extract_keywords_simple`: `re.findall(r'\w+',
question.lower())` (the maximal word-character runs), keeping words not in the
stop list and longer than 3 characters. -/
def extract_keywords_simple (question : String) : List String :=
  let words := (((py_lower question).toList.splitOnP
    (fun c => !(is_word_char c))).map (fun cs => String.mk cs)).filter
    (fun w => w ≠ "")
  words.filter (fun w => !(stop_words.contains w) && w.length > 3)

/-- Python substring containment `needle in hay`. -/
def substr_in (needle hay : String) : Bool :=
  let n := needle.toList
  let h := hay.toList
  (List.range (h.length + 1)).any (fun i => n.isPrefixOf (h.drop i))

/-- Step 2 of `GraphRanker.calculate_column_coverage`: collect the
lower-cased column names of every table of the combination, in table order;
the subscript `schema_metadata[table_name]` raises `KeyError` at the first
missing table. -/
def collect_combo_columns (schema_metadata : SchemaMetadata) :
    List String → Except PyErr (List String)
  | [] => .ok []
  | t :: rest =>
    match lookup_schema schema_metadata t with
    | none => .error (.keyError t)
    | some ts =>
      match collect_combo_columns schema_metadata rest with
      | .error e => .error e
      | .ok others => .ok (ts.columns.map (fun c => py_lower c.name) ++ others)

/-- `GraphRanker.calculate_column_coverage`: count the question keywords that
fuzzily match some column of the combination (`keyword in col_name or
col_name in keyword`) and return `matches / len(keywords)`, or `0.5` when
there are no keywords.  As in the source, the column collection (and hence a
potential `KeyError`) happens before the zero-keyword check. -/
def calculate_column_coverage (combo : Combination) (question : String)
    (schema_metadata : SchemaMetadata) : Except PyErr ℚ :=
  let keywords := extract_keywords_simple question
  match collect_combo_columns schema_metadata combo.tables with
  | .error e => .error e
  | .ok combo_columns =>
    let match_count := keywords.countP
      (fun kw => combo_columns.any
        (fun cn => substr_in kw cn || substr_in cn kw))
    if keywords.length = 0 then
      .ok 0.5
    else
      .ok ((match_count : ℚ) / (keywords.length : ℚ))

/-- Factor 1 of `calculate_heuristic_score` (30% weight): complexity 1 → 1.0,
2 → 0.8, otherwise 0.6. -/
def simplicity_of (combo : Combination) : ℚ :=
  if combo.complexity = 1 then 1.0
  else if combo.complexity = 2 then 0.8
  else 0.6

/-- Factor 2 of `calculate_heuristic_score` (20% weight): 0 joins → 1.0,
1 join → 0.9, otherwise 0.7. -/
def join_quality_of (combo : Combination) : ℚ :=
  if combo.join_paths.length = 0 then 1.0
  else if combo.join_paths.length = 1 then 0.9
  else 0.7

/-- Factor 4 of `calculate_heuristic_score` (historical success, 10% weight):
the two lines computing and adding it are commented out in the source, so the
disabled factor contributes the constant `0` to every score. -/
def historical_contribution : ℚ := 0

/-- The ranker's `historical_data`: success rates keyed by the sorted tuple of
table names. -/
abbrev HistoricalData : Type := List (List String × ℚ)

/-- `GraphRanker.get_historical_success` (the disabled pluggable hook): look
the sorted table-name tuple up in the historical data, defaulting to the
neutral `0.5` for unknown combos. -/
def get_historical_success (combo : Combination)
    (historical_data : HistoricalData) : ℚ :=
  let combo_key := sort_le (fun a b : String => a ≤ b) combo.tables
  match historical_data.find? (fun e => e.1 == combo_key) with
  | some e => e.2
  | none => 0.5

/-- `GraphRanker.calculate_heuristic_score`: `0.30·simplicity +
0.20·join_quality + 0.40·coverage`; the historical-success factor is commented
out in the source and adds nothing (see `historical_contribution`).
`historical_data` is received but no longer consumed. -/
def calculate_heuristic_score (combo : Combination) (question : String)
    (schema_metadata : SchemaMetadata) (_historical_data : HistoricalData) :
    Except PyErr ℚ :=
  match calculate_column_coverage combo question schema_metadata with
  | .error e => .error e
  | .ok coverage =>
    .ok (0.30 * simplicity_of combo + 0.20 * join_quality_of combo
      + 0.40 * coverage)

/-- The scoring loop of `GraphRanker.heuristic_filter`: score every
combination, stopping at the first exception (Python loop semantics). -/
def score_heuristic_all (question : String) (schema_metadata : SchemaMetadata)
    (historical_data : HistoricalData) :
    List Combination → Except PyErr (List (Combination × ℚ))
  | [] => .ok []
  | c :: rest =>
    match calculate_heuristic_score c question schema_metadata historical_data with
    | .error e => .error e
    | .ok s =>
      match score_heuristic_all question schema_metadata historical_data rest with
      | .error e => .error e
      | .ok others => .ok ((c, s) :: others)

/-- `GraphRanker.heuristic_filter`: score all combinations, sort descending by
score (stable), keep the first 10 combinations. -/
def heuristic_filter (combinations : List Combination) (question : String)
    (schema_metadata : SchemaMetadata) (historical_data : HistoricalData) :
    Except PyErr (List Combination) :=
  match score_heuristic_all question schema_metadata historical_data
    combinations with
  | .error e => .error e
  | .ok scored =>
    .ok (((sortByScoreDesc (fun p => p.2) scored).take 10).map (fun p => p.1))

/-- The per-table metadata attached by `enrich_with_metadata` (`row_count` is
`table_schema.get("estimated_rows", 0)`, and the remaining `.get` defaults are
the fields' empty values). -/
structure EnrichedTableMeta where
  columns : List ColumnInfo
  primary_key : List String
  foreign_keys : List FKDecl
  indexes : List IndexInfo
  row_count : Nat
deriving DecidableEq

/-- The enriched combination dict built by `enrich_with_metadata`; its
`metadata` dict is an association list in table order. -/
structure EnrichedCombination where
  tables : List String
  join_paths : List JoinPath
  complexity : Nat
  metadata : List (String × EnrichedTableMeta)
deriving DecidableEq

/-- The loop of `GraphRanker.enrich_with_metadata`: attach the full schema of
every table of the combination, in table order (the `metadata` dict keyed by
table name, as an association list).  The subscript
`schema_metadata[table_name]` raises `KeyError` when a table is missing —
there is no guard here. -/
def enrich_tables (schema_metadata : SchemaMetadata) :
    List String → Except PyErr (List (String × EnrichedTableMeta))
  | [] => .ok []
  | t :: rest =>
    match lookup_schema schema_metadata t with
    | none => .error (.keyError t)
    | some ts =>
      match enrich_tables schema_metadata rest with
      | .error e => .error e
      | .ok others =>
        .ok ((t, ⟨ts.columns, ts.primary_key, ts.foreign_keys,
          ts.indexes, ts.estimated_rows⟩) :: others)

/-- Continuation of `GraphRanker.enrich_with_metadata`: wrap the per-table
metadata (see `enrich_tables`) together with the combination fields. -/
def enrich_with_metadata (combo : Combination)
    (schema_metadata : SchemaMetadata) : Except PyErr EnrichedCombination :=
  match enrich_tables schema_metadata combo.tables with
  | .error e => .error e
  | .ok md => .ok ⟨combo.tables, combo.join_paths, combo.complexity, md⟩

/-- The schema string built inside `rank_with_model`: one
`Table: name (col1, col2, ...)` part per table that is present in
`schema_metadata` (missing tables are silently skipped by the
`if table_name in schema_metadata` guard), joined with the two-character
separator `"\\n"` that the source writes. In this typed model the columns are
always dicts, so the `isinstance` branch extracting `col["name"]` applies. -/
def build_schema_str (tables : List String) (schema_metadata : SchemaMetadata) :
    String :=
  let parts := tables.foldl
    (fun (acc : List String) t =>
      match lookup_schema schema_metadata t with
      | none => acc
      | some tm =>
        acc ++ ["Table: " ++ t ++ " ("
          ++ String.intercalate ", " (tm.columns.map (fun c => c.name)) ++ ")"])
    []
  String.intercalate "\\n" parts

/-- The joins string built inside `rank_with_model`: one equality per zipped
from/to column pair of every join path, joined with the literal `"\\n"`, and
`""` when there are no parts. -/
def build_joins_str (join_paths : List JoinPath) : String :=
  let parts := join_paths.flatMap
    (fun jp => (List.zip jp.from_columns jp.to_columns).map
      (fun pc => jp.from_table ++ "." ++ pc.1 ++ " = " ++ jp.to_table ++ "."
        ++ pc.2))
  if parts = [] then "" else String.intercalate "\\n" parts

/-- One element of `scored_combos` in `rank_with_model`. -/
structure ScoredCombination where
  combination : EnrichedCombination
  score : ℚ
  complexity : Nat
deriving DecidableEq

/-- The body of `rank_with_model`'s loop for one combination: build the two
encoded strings, call the scoring collaborator (`predict`), post-process its
return value with `float(score.strip())`, and enrich the combination. -/
def score_one_combo (predict : String → String → String → PyVal)
    (question : String) (schema_metadata : SchemaMetadata)
    (combo : Combination) : Except PyErr ScoredCombination :=
  let schema := build_schema_str combo.tables schema_metadata
  let joins := build_joins_str combo.join_paths
  match py_strip (predict question schema joins) with
  | .error e => .error e
  | .ok stripped =>
    match py_float stripped with
    | .error e => .error e
    | .ok score =>
      match enrich_with_metadata combo schema_metadata with
      | .error e => .error e
      | .ok enriched => .ok ⟨enriched, score, combo.complexity⟩

/-- The scoring loop of `rank_with_model` over all combinations; the first
exception aborts the whole loop (Python semantics). -/
def score_all (predict : String → String → String → PyVal) (question : String)
    (schema_metadata : SchemaMetadata) :
    List Combination → Except PyErr (List ScoredCombination)
  | [] => .ok []
  | c :: rest =>
    match score_one_combo predict question schema_metadata c with
    | .error e => .error e
    | .ok s =>
      match score_all predict question schema_metadata rest with
      | .error e => .error e
      | .ok others => .ok (s :: others)

/-- `GraphRanker.rank_with_model`: score every combination with the model
collaborator, then sort descending by the model score
(`scored_combos.sort(key=..., reverse=True)`, a stable sort) and return all of
them. -/
def rank_with_model (predict : String → String → String → PyVal)
    (top_10_combos : List Combination) (question : String)
    (schema_metadata : SchemaMetadata) :
    Except PyErr (List ScoredCombination) :=
  match score_all predict question schema_metadata top_10_combos with
  | .error e => .error e
  | .ok scored_combos =>
    .ok (sortByScoreDesc (fun sc => sc.score) scored_combos)

/-- `GraphRanker.graph_ranker`: the heuristic filter (Phase 1) followed by
model rescoring (Phase 2). -/
def graph_ranker (predict : String → String → String → PyVal)
    (combinations : List Combination) (question : String)
    (schema_metadata : SchemaMetadata) (historical_data : HistoricalData) :
    Except PyErr (List ScoredCombination) :=
  match heuristic_filter combinations question schema_metadata
    historical_data with
  | .error e => .error e
  | .ok top_10 => rank_with_model predict top_10 question schema_metadata

/- ### Concrete fixtures used to exercise the definitions -/

/-- A two-table single-connection selection (`orders` 0.9, `customers` 0.8). -/
def sel_ex : List SelectedTable :=
  [⟨"conn1", "orders", 0.9⟩, ⟨"conn1", "customers", 0.8⟩]

/-- One FK edge `orders → customers` on `customer_id → id`. -/
def fk_ex_map : FKMap :=
  [("orders", [("customers", ⟨["customer_id"], ["id"], 1, "constraint"⟩)])]

/-- A metadata store whose FK map is always `fk_ex_map`. -/
def get_fk_ex : String → List String → FKMap := fun _ _ => fk_ex_map

/-- The pair combination the generator produces from `sel_ex` / `fk_ex_map`. -/
def pair_oc : Combination :=
  ⟨["orders", "customers"], 0.85, "conn1",
   [⟨"orders", "customers", ["customer_id"], ["id"]⟩], 2⟩

/-- The single-table combination for `orders`. -/
def single_orders : Combination := ⟨["orders"], 0.9, "conn1", [], 1⟩

/-- The single-table combination for `customers`. -/
def single_customers : Combination := ⟨["customers"], 0.8, "conn1", [], 1⟩

/-- A selection spanning the two connections `c1` and `c2`. -/
def sel_multi : List SelectedTable :=
  [⟨"c1", "a", 0.9⟩, ⟨"c2", "b", 0.8⟩]

/-- Thirty-one tables spanning two connections (table `t0` lives on `c2`,
the rest on `c1`). -/
def sel31 : List SelectedTable :=
  (List.range 31).map fun i =>
    ⟨if i == 0 then "c2" else "c1", "t" ++ toString i, 1⟩

/-- A two-table selection for the chain fixtures. -/
def chain_sel_ex : List SelectedTable := [⟨"c", "a", 1⟩, ⟨"c", "b", 1⟩]

/-- An FK adjacency with the edge `a → b` and the self-loop edge `b → b`. -/
def chain_fk_ex : FKMap :=
  [("a", [("b", ⟨["x"], ["y"], 1, "constraint"⟩)]),
   ("b", [("b", ⟨["u"], ["v"], 1, "constraint"⟩)])]

/-- The degenerate chain `a → b → b` that the self-loop edge produces. -/
def chain_abb : Combination :=
  ⟨["a", "b", "b"], 1, "c",
   [⟨"a", "b", ["x"], ["y"]⟩, ⟨"b", "b", ["u"], ["v"]⟩], 3⟩

/-- The spec's elbow example: seven descending scores with the sharp drop
between index 4 and index 5. -/
def scores_ex : List ℚ := [0.9, 0.85, 0.80, 0.75, 0.70, 0.30, 0.25]

/-- Seven Milvus hits carrying `scores_ex`, all with stored hash `"h"`. -/
def hits7 : List SearchHit :=
  [⟨"c", "t1", "h", 0.9⟩, ⟨"c", "t2", "h", 0.85⟩, ⟨"c", "t3", "h", 0.80⟩,
   ⟨"c", "t4", "h", 0.75⟩, ⟨"c", "t5", "h", 0.70⟩, ⟨"c", "t6", "h", 0.30⟩,
   ⟨"c", "t7", "h", 0.25⟩]

/-- A metadata store that knows every table with current hash `"h"`. -/
def store_ok : String → String → Option CachedSchema := fun _ _ => some ⟨"h", "s"⟩

/-- Three hits used for the isolated-failure fixture. -/
def hits3 : List SearchHit :=
  [⟨"c", "t1", "h", 0.9⟩, ⟨"c", "t2", "h", 0.8⟩, ⟨"c", "t3", "h", 0.7⟩]

/-- A metadata store that fails to produce a schema for `t2` only. -/
def store_fail_t2 : String → String → Option CachedSchema := fun _ t =>
  if t = "t2" then none else some ⟨"h", "s"⟩

/-- A one-table schema metadata map for the ranker fixtures. -/
def meta_ex : SchemaMetadata :=
  [("orders", ⟨[⟨"id", "INTEGER", false⟩, ⟨"customer_id", "INTEGER", true⟩],
    ["id"], [⟨["customer_id"], "customers", ["id"]⟩], [], 42⟩)]

/-- A single-table combination over `orders`. -/
def combo_orders : Combination := ⟨["orders"], 0.9, "conn1", [], 1⟩

/-- A single-table combination over the table `missing`, which `meta_ex`
does not know. -/
def combo_missing : Combination := ⟨["missing"], 0.8, "conn1", [], 1⟩

/-- A scoring collaborator that returns the string `"0.5"` (the only kind of
return value `rank_with_model`'s post-processing can digest). -/
def predict_str_half : String → String → String → PyVal :=
  fun _ _ _ => PyVal.pyStr "0.5"

/-- An arbitrary model-score oracle used to drive `predictor_predict`. -/
def oracle_ex : String → String → String → ℚ := fun _ _ _ => 0.75

/-- Schema metadata covering both tables of `pair_oc`. -/
def meta_pair_ex : SchemaMetadata :=
  [("orders", ⟨[⟨"id", "INTEGER", false⟩, ⟨"customer_id", "INTEGER", true⟩],
    ["id"], [⟨["customer_id"], "customers", ["id"]⟩], [], 42⟩),
   ("customers", ⟨[⟨"id", "INTEGER", false⟩, ⟨"name", "TEXT", true⟩],
    ["id"], [], [], 7⟩)]

/- ### Lemmas about the stable sort -/

theorem insert_le_perm {α : Type} (le : α → α → Bool) (x : α) (l : List α) :
    (insert_le le x l).Perm (x :: l) := by
  induction l with
  | nil => simp [insert_le]
  | cons y ys ih =>
    rw [insert_le]
    split
    · exact List.Perm.refl _
    · exact (List.Perm.cons y ih).trans (List.Perm.swap x y ys)

theorem sort_le_perm {α : Type} (le : α → α → Bool) (l : List α) :
    (sort_le le l).Perm l := by
  induction l with
  | nil => simp [sort_le]
  | cons x xs ih =>
    exact (insert_le_perm le x (sort_le le xs)).trans (List.Perm.cons x ih)

theorem sortByScoreDesc_perm {α : Type} (key : α → ℚ) (l : List α) :
    (sortByScoreDesc key l).Perm l :=
  sort_le_perm _ l

theorem length_sortByScoreDesc {α : Type} (key : α → ℚ) (l : List α) :
    (sortByScoreDesc key l).length = l.length :=
  (sortByScoreDesc_perm key l).length_eq

theorem mem_sortByScoreDesc {α : Type} {key : α → ℚ} {l : List α} {a : α} :
    a ∈ sortByScoreDesc key l ↔ a ∈ l :=
  (sortByScoreDesc_perm key l).mem_iff

theorem pairwise_insert_le_desc {α : Type} (key : α → ℚ) (x : α) (l : List α)
    (hl : l.Pairwise (fun a b => key b ≤ key a)) :
    (insert_le (fun a b => key b ≤ key a) x l).Pairwise
      (fun a b => key b ≤ key a) := by
  induction l with
  | nil => simp [insert_le]
  | cons y ys ih =>
    rw [List.pairwise_cons] at hl
    obtain ⟨hy, hys⟩ := hl
    rw [insert_le]
    split
    next h =>
      have hxy : key y ≤ key x := of_decide_eq_true h
      refine List.pairwise_cons.mpr ⟨?_, List.pairwise_cons.mpr ⟨hy, hys⟩⟩
      intro z hz
      rcases List.mem_cons.mp hz with rfl | hz'
      · exact hxy
      · exact (hy z hz').trans hxy
    next h =>
      have hxy : ¬ key y ≤ key x := fun hc => h (decide_eq_true hc)
      refine List.pairwise_cons.mpr ⟨?_, ih hys⟩
      intro z hz
      rcases List.mem_cons.mp ((insert_le_perm _ x ys).mem_iff.mp hz)
        with rfl | hz'
      · exact le_of_lt (lt_of_not_le hxy)
      · exact hy z hz'

theorem sorted_sortByScoreDesc {α : Type} (key : α → ℚ) (l : List α) :
    (sortByScoreDesc key l).Pairwise (fun a b => key b ≤ key a) := by
  unfold sortByScoreDesc
  induction l with
  | nil => simp [sort_le]
  | cons x xs ih =>
    rw [sort_le]
    exact pairwise_insert_le_desc key x _ ih

theorem filter_insert_le_desc {α : Type} (key : α → ℚ) (q : ℚ) (x : α)
    (l : List α) :
    (insert_le (fun a b => key b ≤ key a) x l).filter (fun z => key z = q)
      = if key x = q then x :: l.filter (fun z => key z = q)
        else l.filter (fun z => key z = q) := by
  induction l with
  | nil => simp [insert_le, List.filter_cons, decide_eq_true_eq]
  | cons y ys ih =>
    rw [insert_le]
    split
    next h =>
      simp only [List.filter_cons, decide_eq_true_eq]
    next h =>
      have hxy : key x < key y := lt_of_not_le (fun hc => h (decide_eq_true hc))
      simp only [List.filter_cons, decide_eq_true_eq, ih]
      by_cases hyq : key y = q <;> by_cases hxq : key x = q <;>
        simp [hyq, hxq]
      exact absurd hxy (by rw [hxq, hyq]; exact lt_irrefl q)

theorem filter_sortByScoreDesc {α : Type} (key : α → ℚ) (q : ℚ) (l : List α) :
    (sortByScoreDesc key l).filter (fun z => key z = q)
      = l.filter (fun z => key z = q) := by
  unfold sortByScoreDesc
  induction l with
  | nil => rfl
  | cons x xs ih =>
    rw [sort_le]
    have := filter_insert_le_desc key q x (sort_le (fun a b => key b ≤ key a) xs)
    rw [this, ih, List.filter_cons]
    simp only [decide_eq_true_eq]

/- ### Shape lemmas for the candidate generator -/

theorem generate_singles_shape {sel : List SelectedTable} {c : Combination}
    (hc : c ∈ generate_singles sel) :
    ∃ t ∈ sel, c = ⟨[t.table_name], t.similarity_score, t.connection_id, [], 1⟩ := by
  obtain ⟨t, ht, hform⟩ := List.mem_map.mp hc
  exact ⟨t, ht, hform.symm⟩

theorem generate_pairs_shape {sel : List SelectedTable} {fk : FKMap}
    {c : Combination} (hc : c ∈ generate_pairs sel fk) :
    c.complexity = 2 ∧ c.tables.length = 2 ∧ c.join_paths.length = 1 ∧
    c.connection_id = head_connection_id sel ∧
    ∀ t ∈ c.tables, t ∈ sel.map (fun s => s.table_name) := by
  unfold generate_pairs at hc
  rw [mem_sortByScoreDesc, List.mem_flatMap] at hc
  obtain ⟨e1, _, hc⟩ := hc
  by_cases h1 : (sel.map (fun t => t.table_name)).contains e1.1
  · rw [if_pos h1] at hc
    rw [List.mem_flatMap] at hc
    obtain ⟨e2, _, hc⟩ := hc
    by_cases h2 : (sel.map (fun t => t.table_name)).contains e2.1
    · rw [if_pos h2] at hc
      rw [List.mem_singleton] at hc
      subst hc
      refine ⟨rfl, rfl, rfl, rfl, ?_⟩
      intro t ht
      rcases List.mem_cons.mp ht with rfl | ht'
      · simpa using h1
      · rw [List.mem_singleton.mp ht']
        simpa using h2
    · rw [if_neg h2] at hc
      exact absurd hc (List.not_mem_nil c)
  · rw [if_neg h1] at hc
    exact absurd hc (List.not_mem_nil c)

theorem generate_chains_shape {sel : List SelectedTable} {fk : FKMap}
    {c : Combination} (hc : c ∈ generate_chains sel fk) :
    ∃ t1 t2 t3, c.tables = [t1, t2, t3] ∧ t1 ≠ t3 ∧
      c.complexity = 3 ∧ c.join_paths.length = 2 ∧
      c.connection_id = head_connection_id sel ∧
      t1 ∈ sel.map (fun s => s.table_name) ∧
      t2 ∈ sel.map (fun s => s.table_name) ∧
      t3 ∈ sel.map (fun s => s.table_name) := by
  unfold generate_chains at hc
  rw [mem_sortByScoreDesc, List.mem_flatMap] at hc
  obtain ⟨e1, _, hc⟩ := hc
  by_cases h1 : (sel.map (fun t => t.table_name)).contains e1.1
  · rw [if_pos h1] at hc
    rw [List.mem_flatMap] at hc
    obtain ⟨e2, _, hc⟩ := hc
    by_cases h2 : (sel.map (fun t => t.table_name)).contains e2.1
    · rw [if_pos h2] at hc
      rcases hlk : lookupFK fk e2.1 with _ | targets2
      · rw [hlk] at hc
        exact absurd hc (List.not_mem_nil c)
      · rw [hlk] at hc
        rw [List.mem_flatMap] at hc
        obtain ⟨e3, _, hc⟩ := hc
        by_cases h3 : (sel.map (fun t => t.table_name)).contains e3.1
        · rw [if_pos h3] at hc
          by_cases h4 : e3.1 == e1.1
          · rw [if_pos h4] at hc
            exact absurd hc (List.not_mem_nil c)
          · rw [if_neg h4] at hc
            rw [List.mem_singleton] at hc
            subst hc
            refine ⟨e1.1, e2.1, e3.1, rfl, ?_, rfl, rfl, rfl, ?_, ?_, ?_⟩
            · intro hEq
              exact h4 (by simp [hEq])
            · simpa using h1
            · simpa using h2
            · simpa using h3
        · rw [if_neg h3] at hc
          exact absurd hc (List.not_mem_nil c)
    · rw [if_neg h2] at hc
      exact absurd hc (List.not_mem_nil c)
  · rw [if_neg h1] at hc
    exact absurd hc (List.not_mem_nil c)

theorem generate_pairs_empty_fk (sel : List SelectedTable) :
    generate_pairs sel [] = [] := rfl

theorem generate_chains_empty_fk (sel : List SelectedTable) :
    generate_chains sel [] = [] := rfl

/-- Branch analysis of `generate_combinations`: a successful run is either
the multi-connection degradation or the capped single-connection
concatenation (the 30-cap commutes with the emptiness shortcut on the FK
map because pairs and chains of an empty map are empty). -/
theorem generate_combinations_cases
    (get_fk_map : String → List String → FKMap) (sel : List SelectedTable)
    (res : GenResult) (h : generate_combinations get_fk_map sel = some res) :
    (1 < ((sel.map (fun t => t.connection_id)).dedup).length ∧
      res = ⟨generate_singles sel,
        .multi_connection multi_conn_error_msg
          ((sel.map (fun t => t.connection_id)).dedup)⟩)
    ∨ (∃ cid, (sel.map (fun t => t.connection_id)).dedup = [cid] ∧
      res.combinations =
        (generate_singles sel
          ++ generate_pairs sel (get_fk_map cid (sel.map (fun t => t.table_name)))
          ++ generate_chains sel (get_fk_map cid (sel.map (fun t => t.table_name)))
        ).take 30) := by
  unfold generate_combinations at h
  by_cases hd : ((sel.map (fun t => t.connection_id)).dedup).length > 1
  · rw [if_pos hd] at h
    left
    exact ⟨hd, (Option.some_injective _ h).symm⟩
  · rw [if_neg hd] at h
    rcases hde : (sel.map (fun t => t.connection_id)).dedup with _ | ⟨cid, rest⟩
    · rw [hde] at h
      exact absurd h (by simp)
    · rcases rest with _ | ⟨c2, rest2⟩
      · rw [hde] at h
        right
        refine ⟨cid, hde, ?_⟩
        have hres := (Option.some_injective _ h).symm
        rw [hres]
        by_cases hfk : get_fk_map cid (sel.map (fun t => t.table_name)) = []
        · rw [hfk, generate_pairs_empty_fk, generate_chains_empty_fk,
            List.append_nil, List.append_nil]
          simp only [hfk, List.isEmpty_nil, if_true]
          by_cases hlen : (generate_singles sel).length > 30
          · rw [if_pos hlen]
          · rw [if_neg hlen,
              List.take_of_length_le (Nat.le_of_not_lt hlen)]
        · have he : (get_fk_map cid (sel.map (fun t => t.table_name))).isEmpty
              = false := by
            rcases hcase : get_fk_map cid (sel.map (fun t => t.table_name)) with
              _ | ⟨a, b⟩
            · exact absurd hcase hfk
            · rw [hcase]; rfl
          simp only [he, Bool.false_eq_true, if_false]
          by_cases hlen : (generate_singles sel
              ++ generate_pairs sel (get_fk_map cid (sel.map (fun t => t.table_name)))
              ++ generate_chains sel (get_fk_map cid (sel.map (fun t => t.table_name)))
            ).length > 30
          · rw [if_pos hlen]
          · rw [if_neg hlen,
              List.take_of_length_le (Nat.le_of_not_lt hlen)]
      · rw [hde] at hd
        exact absurd (by simp : 1 < (cid :: c2 :: rest2).length) hd

theorem dedup_singleton_all {l : List String} {a : String}
    (h : l.dedup = [a]) : ∀ x ∈ l, x = a := by
  intro x hx
  have hm : x ∈ l.dedup := List.mem_dedup.mpr hx
  rw [h] at hm
  exact List.mem_singleton.mp hm

theorem head_connection_id_of_dedup {sel : List SelectedTable} {cid : String}
    (h : (sel.map (fun t => t.connection_id)).dedup = [cid]) :
    head_connection_id sel = cid := by
  cases sel with
  | nil => simp [List.dedup_nil] at h
  | cons s0 sel' =>
    have hs0 : s0.connection_id = cid :=
      dedup_singleton_all h s0.connection_id (by simp)
    simp [head_connection_id, hs0]

theorem all_connection_ids_of_dedup {sel : List SelectedTable} {cid : String}
    (h : (sel.map (fun t => t.connection_id)).dedup = [cid]) :
    ∀ s ∈ sel, s.connection_id = cid := by
  intro s hs
  exact dedup_singleton_all h s.connection_id (List.mem_map_of_mem _ hs)

theorem table_from_sel {sel : List SelectedTable} {t : String}
    (ht : t ∈ sel.map (fun s => s.table_name)) :
    ∃ s ∈ sel, s.table_name = t := by
  obtain ⟨s, hs, ht2⟩ := List.mem_map.mp ht
  exact ⟨s, hs, ht2⟩

/-- Concrete evaluation of the generator on the `orders`/`customers`
fixture: two singles followed by the sorted pair group. -/
theorem generate_combinations_ex_eval :
    generate_combinations get_fk_ex sel_ex =
      some ⟨[single_orders, single_customers, pair_oc],
        .single_connection 3 "conn1" 1⟩ := by
  norm_num [generate_combinations, generate_singles, generate_pairs,
    generate_chains, sortByScoreDesc, sort_le, insert_le, table_score,
    head_connection_id, lookupFK, sel_ex, fk_ex_map, get_fk_ex, pair_oc,
    single_orders, single_customers, List.dedup_cons_of_mem,
    List.dedup_cons_of_not_mem, List.find?, Option.map, Option.getD,
    show (("customers" == "orders") : Bool) = false from by decide,
    show (("orders" == "orders") : Bool) = true from by decide,
    show (("orders" == "customers") : Bool) = false from by decide,
    show (("customers" == "customers") : Bool) = true from by decide]

/-- Concrete evaluation of chain generation on the self-loop fixture: exactly
the degenerate chain `a → b → b`. -/
theorem generate_chains_ex_eval :
    generate_chains chain_sel_ex chain_fk_ex = [chain_abb] := by
  norm_num [generate_chains, sortByScoreDesc, sort_le, insert_le, table_score,
    head_connection_id, lookupFK, chain_sel_ex, chain_fk_ex, chain_abb,
    List.find?, Option.map, Option.getD,
    show (("b" == "a") : Bool) = false from by decide,
    show (("a" == "a") : Bool) = true from by decide,
    show (("a" == "b") : Bool) = false from by decide,
    show (("b" == "b") : Bool) = true from by decide]

/-- C1: every combination produced by `generate_combinations` (through
`generate_singles`, `generate_pairs`, `generate_chains`) satisfies
`complexity == len(tables)`, `len(join_paths) == complexity - 1`, has between
1 and 3 tables, and each of its tables is a selected table whose
connection id is the combination's connection id (so all tables of one
combination share one connection id). -/
theorem combination_invariants
    (get_fk_map : String → List String → FKMap) (sel : List SelectedTable)
    (res : GenResult) (h : generate_combinations get_fk_map sel = some res) :
    ∀ c ∈ res.combinations,
      c.complexity = c.tables.length ∧
      c.join_paths.length = c.complexity - 1 ∧
      1 ≤ c.tables.length ∧ c.tables.length ≤ 3 ∧
      ∀ t ∈ c.tables, ∃ s ∈ sel,
        s.table_name = t ∧ s.connection_id = c.connection_id := by
  intro c hc
  rcases generate_combinations_cases get_fk_map sel res h with
    ⟨_, hres⟩ | ⟨cid, hded, hcomb⟩
  · rw [hres] at hc
    obtain ⟨t, ht, rfl⟩ := generate_singles_shape hc
    refine ⟨rfl, rfl, by simp, by simp, ?_⟩
    intro t' ht'
    have ht'' : t' = t.table_name := List.mem_singleton.mp ht'
    exact ⟨t, ht, ht''.symm, rfl⟩
  · rw [hcomb] at hc
    have hc' := List.mem_of_mem_take hc
    have hall := all_connection_ids_of_dedup hded
    have hhead := head_connection_id_of_dedup hded
    rcases List.mem_append.mp hc' with hsp | hchain
    · rcases List.mem_append.mp hsp with hsingle | hpair
      · obtain ⟨t, ht, rfl⟩ := generate_singles_shape hsingle
        refine ⟨rfl, rfl, by simp, by simp, ?_⟩
        intro t' ht'
        have ht'' : t' = t.table_name := List.mem_singleton.mp ht'
        exact ⟨t, ht, ht''.symm, rfl⟩
      · obtain ⟨h2, hlen2, hjp, hconn, htabs⟩ := generate_pairs_shape hpair
        refine ⟨by omega, by omega, by omega, by omega, ?_⟩
        intro t ht
        obtain ⟨s, hs, hname⟩ := table_from_sel (htabs t ht)
        refine ⟨s, hs, hname, ?_⟩
        rw [hconn, hhead]
        exact hall s hs
    · obtain ⟨t1, t2, t3, htab, _, h3, hjp2, hconn, h1m, h2m, h3m⟩ :=
        generate_chains_shape hchain
      have hlen3 : c.tables.length = 3 := by rw [htab]; rfl
      refine ⟨by omega, by omega, by omega, by omega, ?_⟩
      intro t ht
      rw [htab] at ht
      have htm : t ∈ sel.map (fun s => s.table_name) := by
        rcases List.mem_cons.mp ht with rfl | ht'
        · exact h1m
        · rcases List.mem_cons.mp ht' with rfl | ht''
          · exact h2m
          · rw [List.mem_singleton.mp ht'']
            exact h3m
      obtain ⟨s, hs, hname⟩ := table_from_sel htm
      refine ⟨s, hs, hname, ?_⟩
      rw [hconn, hhead]
      exact hall s hs

/-- C1 witness: the invariant instantiated at the `orders`/`customers` pair
combination produced from the concrete fixture. -/
theorem combination_invariants_witness :
    pair_oc.complexity = pair_oc.tables.length ∧
    pair_oc.join_paths.length = pair_oc.complexity - 1 ∧
    1 ≤ pair_oc.tables.length ∧ pair_oc.tables.length ≤ 3 ∧
    ∀ t ∈ pair_oc.tables, ∃ s ∈ sel_ex,
      s.table_name = t ∧ s.connection_id = pair_oc.connection_id :=
  combination_invariants get_fk_ex sel_ex
    ⟨[single_orders, single_customers, pair_oc], .single_connection 3 "conn1" 1⟩
    generate_combinations_ex_eval pair_oc (by simp)

/-- C6: when the selection spans more than one connection id,
`generate_combinations` returns exactly the single-table combinations (no
pairs, no chains, so no joins at all) together with the error metadata entry
naming precisely the selection's connection ids. -/
theorem multi_connection_singles_only
    (get_fk_map : String → List String → FKMap) (sel : List SelectedTable)
    (res : GenResult) (h : generate_combinations get_fk_map sel = some res)
    (hmulti : 1 < ((sel.map (fun t => t.connection_id)).dedup).length) :
    res.combinations = generate_singles sel ∧
    res.metadata = .multi_connection multi_conn_error_msg
      ((sel.map (fun t => t.connection_id)).dedup) ∧
    (∀ c ∈ res.combinations, c.complexity = 1 ∧ c.join_paths = []) ∧
    (∀ cid, cid ∈ (sel.map (fun t => t.connection_id)).dedup ↔
      cid ∈ sel.map (fun t => t.connection_id)) := by
  rcases generate_combinations_cases get_fk_map sel res h with
    ⟨_, hres⟩ | ⟨cid, hded, _⟩
  · subst hres
    refine ⟨rfl, rfl, ?_, ?_⟩
    · intro c hc
      obtain ⟨t, _, rfl⟩ := generate_singles_shape hc
      exact ⟨rfl, rfl⟩
    · intro cid
      exact List.mem_dedup
  · rw [hded] at hmulti
    exact absurd hmulti (by simp)

/-- C6 witness: the degradation at a concrete selection spanning the
connections `c1` and `c2`. -/
theorem multi_connection_singles_only_witness :
    ((generate_combinations get_fk_ex sel_multi).getD
        ⟨[], .single_connection 0 "" 0⟩).combinations
      = generate_singles sel_multi ∧
    ((generate_combinations get_fk_ex sel_multi).getD
        ⟨[], .single_connection 0 "" 0⟩).metadata
      = .multi_connection multi_conn_error_msg
        ((sel_multi.map (fun t => t.connection_id)).dedup) ∧
    (∀ c ∈ ((generate_combinations get_fk_ex sel_multi).getD
        ⟨[], .single_connection 0 "" 0⟩).combinations,
      c.complexity = 1 ∧ c.join_paths = []) ∧
    (∀ cid, cid ∈ (sel_multi.map (fun t => t.connection_id)).dedup ↔
      cid ∈ sel_multi.map (fun t => t.connection_id)) :=
  multi_connection_singles_only get_fk_ex sel_multi
    ((generate_combinations get_fk_ex sel_multi).getD
      ⟨[], .single_connection 0 "" 0⟩)
    (by rfl) (by decide)

/-- C4 (amended): in the single-connection case the candidate list is the
concatenation singles ++ pairs ++ chains truncated to its first 30 entries
(pairs and chains each internally sorted descending by their own aggregate
score) and hence has length at most 30; in the multi-connection case the
returned list is all singles with no cap, so its length is the number of
selected tables (which can exceed 30). -/
theorem candidate_list_capping :
    (∀ (get_fk_map : String → List String → FKMap) sel res cid,
      generate_combinations get_fk_map sel = some res →
      (sel.map (fun t => t.connection_id)).dedup = [cid] →
      res.combinations =
        (generate_singles sel
          ++ generate_pairs sel (get_fk_map cid (sel.map (fun t => t.table_name)))
          ++ generate_chains sel (get_fk_map cid (sel.map (fun t => t.table_name)))
        ).take 30 ∧
      res.combinations.length ≤ 30) ∧
    (∀ (get_fk_map : String → List String → FKMap) sel res,
      generate_combinations get_fk_map sel = some res →
      1 < ((sel.map (fun t => t.connection_id)).dedup).length →
      res.combinations = generate_singles sel ∧
      res.combinations.length = sel.length) ∧
    (∀ sel fk, (generate_pairs sel fk).Pairwise
      (fun a b => b.similarity_score ≤ a.similarity_score)) ∧
    (∀ sel fk, (generate_chains sel fk).Pairwise
      (fun a b => b.similarity_score ≤ a.similarity_score)) := by
  refine ⟨?_, ?_, ?_, ?_⟩
  · intro get_fk_map sel res cid h hded
    rcases generate_combinations_cases get_fk_map sel res h with
      ⟨hmulti, _⟩ | ⟨cid2, hded2, hcomb⟩
    · rw [hded] at hmulti
      exact absurd hmulti (by simp)
    · have hcid : cid2 = cid := by
        rw [hded] at hded2
        exact (List.cons.injEq .. ▸ hded2).1.symm ▸ rfl
      rw [hcid] at hcomb
      refine ⟨hcomb, ?_⟩
      rw [hcomb, List.length_take]
      exact Nat.min_le_left 30 _
  · intro get_fk_map sel res h hmulti
    rcases generate_combinations_cases get_fk_map sel res h with
      ⟨_, hres⟩ | ⟨cid, hded, _⟩
    · subst hres
      exact ⟨rfl, by simp [generate_singles]⟩
    · rw [hded] at hmulti
      exact absurd hmulti (by simp)
  · intro sel fk
    unfold generate_pairs
    exact sorted_sortByScoreDesc _ _
  · intro sel fk
    unfold generate_chains
    exact sorted_sortByScoreDesc _ _

/-- C4 counterexample to the claim as stated: on 31 tables spanning two
connections, `generate_combinations` succeeds yet returns 31 combinations —
the multi-connection branch applies no 30-cap, so "length always ≤ 30" is
false. -/
theorem candidate_list_cap_counterexample :
    ¬ (∀ res, generate_combinations (fun _ _ => []) sel31 = some res →
        res.combinations.length ≤ 30) := by
  intro hcl
  have h := hcl ((generate_combinations (fun _ _ => []) sel31).getD
    ⟨[], .multi_connection "" []⟩) (by rfl)
  exact absurd h (by decide)

/-- C4 witness: the capped single-connection shape at the concrete
`orders`/`customers` fixture. -/
theorem candidate_list_capping_witness :
    (GenResult.mk [single_orders, single_customers, pair_oc]
        (.single_connection 3 "conn1" 1)).combinations =
      (generate_singles sel_ex
        ++ generate_pairs sel_ex
            (get_fk_ex "conn1" (sel_ex.map (fun t => t.table_name)))
        ++ generate_chains sel_ex
            (get_fk_ex "conn1" (sel_ex.map (fun t => t.table_name)))
      ).take 30 ∧
    (GenResult.mk [single_orders, single_customers, pair_oc]
        (.single_connection 3 "conn1" 1)).combinations.length ≤ 30 :=
  candidate_list_capping.1 get_fk_ex sel_ex
    ⟨[single_orders, single_customers, pair_oc], .single_connection 3 "conn1" 1⟩
    "conn1" generate_combinations_ex_eval (by simp [sel_ex])

/-- C5: every chain is a three-table path `[t1, t2, t3]` with `t1 ≠ t3`
(the origin revisit `tables[0] == tables[2]` is excluded), while the
degenerate chain `a → b → b` arising from a self-loop edge in the adjacency
is emitted — `tables[1] == tables[2]` is not filtered out. -/
theorem chain_origin_revisit_excluded :
    (∀ sel fk c, c ∈ generate_chains sel fk →
      ∃ t1 t2 t3, c.tables = [t1, t2, t3] ∧ t1 ≠ t3) ∧
    chain_abb ∈ generate_chains chain_sel_ex chain_fk_ex ∧
    chain_abb.tables = ["a", "b", "b"] := by
  refine ⟨?_, by rw [generate_chains_ex_eval]; exact List.mem_singleton.mpr rfl,
    rfl⟩
  intro sel fk c hc
  obtain ⟨t1, t2, t3, htab, hne, _⟩ := generate_chains_shape hc
  exact ⟨t1, t2, t3, htab, fun hEq => hne hEq⟩

/-- C5 witness: the no-origin-revisit shape instantiated at the degenerate
`a → b → b` chain of the self-loop fixture. -/
theorem chain_origin_revisit_excluded_witness :
    ∃ t1 t2 t3, chain_abb.tables = [t1, t2, t3] ∧ t1 ≠ t3 :=
  chain_origin_revisit_excluded.1 chain_sel_ex chain_fk_ex chain_abb
    (by rw [generate_chains_ex_eval]; exact List.mem_singleton.mpr rfl)

/- ### Retriever lemmas and claims -/

theorem drops_ex_eval :
    score_drops scores_ex = [0.05, 0.05, 0.05, 0.05, 0.4, 0.05] := by
  norm_num [score_drops, scores_ex, List.range_succ, getElem!_pos]

theorem find_elbow_ex_eval : find_score_elbow scores_ex = 5 := by
  unfold find_score_elbow
  rw [if_neg (by norm_num [scores_ex])]
  rw [drops_ex_eval]
  have hmax : (([0.05, 0.05, 0.05, 0.05, 0.4, 0.05] : List ℚ).max?).getD 0
      = 0.4 := by
    norm_num [List.max?_cons, max_def, Option.elim]
  have hidx : ([0.05, 0.05, 0.05, 0.05, 0.4, 0.05] : List ℚ).indexOf (0.4 : ℚ)
      = 4 := by
    norm_num [List.indexOf_cons, beq_iff_eq]
  simp only [hmax, hidx]
  norm_num

theorem validate_hits_append
    (get_table_schema : String → String → Option CachedSchema)
    (l1 l2 : List SearchHit) :
    validate_hits get_table_schema (l1 ++ l2) =
      ((validate_hits get_table_schema l1).1 ++ (validate_hits get_table_schema l2).1,
       (validate_hits get_table_schema l1).2 ++ (validate_hits get_table_schema l2).2) := by
  induction l1 with
  | nil => simp [validate_hits]
  | cons hit rest ih =>
    rw [List.cons_append]
    rw [validate_hits, ih, validate_hits]
    cases get_table_schema hit.connection_id hit.table_name with
    | none => simp
    | some cached =>
      by_cases hh : cached.hash = hit.schema_hash
      · simp [hh]
      · simp [hh]

theorem validate_hits_failure_cons
    (get_table_schema : String → String → Option CachedSchema)
    (hit : SearchHit) (rest : List SearchHit)
    (hfail : get_table_schema hit.connection_id hit.table_name = none) :
    validate_hits get_table_schema (hit :: rest) =
      ((validate_hits get_table_schema rest).1,
       ⟨hit.connection_id, hit.table_name⟩ :: (validate_hits get_table_schema rest).2) := by
  rw [validate_hits, hfail]

/-- Concrete evaluation of validation on the seven-hit fixture: every hit
validates (hash `"h"` matches) and nothing is queued for resync. -/
theorem validate_hits7_eval :
    validate_hits store_ok hits7 =
      ([⟨"c", "t1", 0.9, "s"⟩, ⟨"c", "t2", 0.85, "s"⟩, ⟨"c", "t3", 0.80, "s"⟩,
        ⟨"c", "t4", 0.75, "s"⟩, ⟨"c", "t5", 0.70, "s"⟩, ⟨"c", "t6", 0.30, "s"⟩,
        ⟨"c", "t7", 0.25, "s"⟩], []) := by
  norm_num [validate_hits, store_ok, hits7]

/-- C2: the retriever's cutoff selection.  `find_score_elbow` returns the
score count below 3 scores and otherwise the banded elbow point (first index
of the maximal consecutive drop, plus one, mapped into `≤5 → 5`, `≤10 → 10`,
`else → 15`); `search_tables` clamps that value into `[5, 15]` via
`max 5 (min 15 k)` and truncates the validated hits to it; and on the
validated scores `[0.9, 0.85, 0.80, 0.75, 0.70, 0.30, 0.25]` the returned
cutoff is 5. -/
theorem elbow_cutoff_selection :
    (∀ scores : List ℚ, scores.length < 3 →
      find_score_elbow scores = scores.length) ∧
    (∀ scores : List ℚ, 3 ≤ scores.length →
      find_score_elbow scores =
        (if (score_drops scores).indexOf ((score_drops scores).max?.getD 0) + 1 ≤ 5
          then 5
          else if (score_drops scores).indexOf
              ((score_drops scores).max?.getD 0) + 1 ≤ 10
            then 10 else 15)) ∧
    (∀ get_table_schema hits tables k total stale,
      search_tables get_table_schema hits = .found tables k total stale →
      k = max 5 (min 15 (find_score_elbow
          (((validate_hits get_table_schema hits).1).map
            (fun t => t.similarity_score)))) ∧
      tables = ((validate_hits get_table_schema hits).1).take k) ∧
    find_score_elbow scores_ex = 5 ∧
    search_tables store_ok hits7 =
      .found [⟨"c", "t1", 0.9, "s"⟩, ⟨"c", "t2", 0.85, "s"⟩,
        ⟨"c", "t3", 0.80, "s"⟩, ⟨"c", "t4", 0.75, "s"⟩, ⟨"c", "t5", 0.70, "s"⟩]
        5 7 0 := by
  refine ⟨?_, ?_, ?_, find_elbow_ex_eval, ?_⟩
  · intro scores h
    unfold find_score_elbow
    rw [if_pos h]
  · intro scores h
    unfold find_score_elbow
    rw [if_neg (Nat.not_lt.mpr h)]
  · intro get_table_schema hits tables k total stale h
    unfold search_tables at h
    by_cases hv : ((validate_hits get_table_schema hits).1).length = 0
    · rw [if_pos hv] at h
      exact absurd h (by simp)
    · rw [if_neg hv] at h
      cases h
      exact ⟨rfl, rfl⟩
  · unfold search_tables
    rw [validate_hits7_eval]
    rw [if_neg (by norm_num)]
    have hsc : ([⟨"c", "t1", 0.9, "s"⟩, ⟨"c", "t2", 0.85, "s"⟩,
        ⟨"c", "t3", 0.80, "s"⟩, ⟨"c", "t4", 0.75, "s"⟩, ⟨"c", "t5", 0.70, "s"⟩,
        ⟨"c", "t6", 0.30, "s"⟩, ⟨"c", "t7", 0.25, "s"⟩] :
        List ValidatedTable).map (fun t => t.similarity_score) = scores_ex := by
      norm_num [scores_ex]
    rw [hsc]
    simp only [find_elbow_ex_eval]
    norm_num [hits7, max_def, min_def, List.take_succ_cons]

/-- C2 witness: the count-of-hits rule of `find_score_elbow` instantiated at
the two-score list `[0.9, 0.2]`, and the banded rule at `scores_ex`. -/
theorem elbow_cutoff_selection_witness :
    find_score_elbow [(0.9 : ℚ), 0.2] = 2 ∧
    find_score_elbow scores_ex =
      (if (score_drops scores_ex).indexOf
            ((score_drops scores_ex).max?.getD 0) + 1 ≤ 5
        then 5
        else if (score_drops scores_ex).indexOf
            ((score_drops scores_ex).max?.getD 0) + 1 ≤ 10
          then 10 else 15) :=
  ⟨elbow_cutoff_selection.1 [(0.9 : ℚ), 0.2] (by norm_num),
   elbow_cutoff_selection.2.1 scores_ex (by norm_num [scores_ex])⟩

/-- C8: a per-hit metadata-store lookup failure (the store yields no schema
for that hit) is isolated: the hit is queued for resync exactly like a stale
hit, the remaining hits are validated exactly as they would be without it,
and in particular `search_tables` on the three-hit fixture whose middle hit
fails still returns the two remaining validated hits. -/
theorem per_hit_store_failure_isolated :
    (∀ (get_table_schema : String → String → Option CachedSchema)
        (hits1 : List SearchHit) (hit : SearchHit) (hits2 : List SearchHit),
      get_table_schema hit.connection_id hit.table_name = none →
      (validate_hits get_table_schema (hits1 ++ hit :: hits2)).1
        = (validate_hits get_table_schema hits1).1
          ++ (validate_hits get_table_schema hits2).1 ∧
      (validate_hits get_table_schema (hits1 ++ hit :: hits2)).2
        = (validate_hits get_table_schema hits1).2
          ++ ⟨hit.connection_id, hit.table_name⟩
            :: (validate_hits get_table_schema hits2).2) ∧
    search_tables store_fail_t2 hits3 =
      .found [⟨"c", "t1", 0.9, "s"⟩, ⟨"c", "t3", 0.7, "s"⟩] 5 3 1 := by
  constructor
  · intro get_table_schema hits1 hit hits2 hfail
    rw [validate_hits_append get_table_schema hits1 (hit :: hits2),
      validate_hits_failure_cons get_table_schema hit hits2 hfail]
    exact ⟨rfl, rfl⟩
  · have hval : validate_hits store_fail_t2 hits3 =
        ([⟨"c", "t1", 0.9, "s"⟩, ⟨"c", "t3", 0.7, "s"⟩], [⟨"c", "t2"⟩]) := by
      norm_num [validate_hits, hits3,
        show store_fail_t2 "c" "t1" = some ⟨"h", "s"⟩ from by decide,
        show store_fail_t2 "c" "t2" = none from by decide,
        show store_fail_t2 "c" "t3" = some ⟨"h", "s"⟩ from by decide]
    unfold search_tables
    rw [hval]
    rw [if_neg (by norm_num)]
    have hsc : ([⟨"c", "t1", 0.9, "s"⟩, ⟨"c", "t3", 0.7, "s"⟩] :
        List ValidatedTable).map (fun t => t.similarity_score) = [0.9, 0.7] := by
      norm_num
    rw [hsc]
    have helb : find_score_elbow [(0.9 : ℚ), 0.7] = 2 := by
      unfold find_score_elbow
      rw [if_pos (by norm_num)]
      norm_num
    simp only [helb]
    norm_num [hits3, max_def, min_def, List.take_succ_cons]

/-- C8 witness: the isolation equations instantiated at the three-hit
fixture, with the failing middle hit supplied explicitly. -/
theorem per_hit_store_failure_isolated_witness :
    (validate_hits store_fail_t2
        ([⟨"c", "t1", "h", 0.9⟩] ++ (⟨"c", "t2", "h", 0.8⟩ : SearchHit)
          :: [⟨"c", "t3", "h", 0.7⟩])).1
      = (validate_hits store_fail_t2 [⟨"c", "t1", "h", 0.9⟩]).1
        ++ (validate_hits store_fail_t2 [⟨"c", "t3", "h", 0.7⟩]).1 ∧
    (validate_hits store_fail_t2
        ([⟨"c", "t1", "h", 0.9⟩] ++ (⟨"c", "t2", "h", 0.8⟩ : SearchHit)
          :: [⟨"c", "t3", "h", 0.7⟩])).2
      = (validate_hits store_fail_t2 [⟨"c", "t1", "h", 0.9⟩]).2
        ++ ⟨"c", "t2"⟩ :: (validate_hits store_fail_t2 [⟨"c", "t3", "h", 0.7⟩]).2 :=
  per_hit_store_failure_isolated.1 store_fail_t2
    [⟨"c", "t1", "h", 0.9⟩] ⟨"c", "t2", "h", 0.8⟩ [⟨"c", "t3", "h", 0.7⟩]
    (by decide)

/- ### Ranker lemmas and claims -/

theorem score_heuristic_all_length (q : String) (m : SchemaMetadata)
    (hist : HistoricalData) :
    ∀ (l : List Combination) (r : List (Combination × ℚ)),
      score_heuristic_all q m hist l = .ok r → r.length = l.length := by
  intro l
  induction l with
  | nil =>
    intro r h
    simp only [score_heuristic_all] at h
    cases h
    rfl
  | cons c rest ih =>
    intro r h
    simp only [score_heuristic_all] at h
    cases h1 : calculate_heuristic_score c q m hist with
    | error e => rw [h1] at h; simp at h
    | ok s =>
      rw [h1] at h
      cases h2 : score_heuristic_all q m hist rest with
      | error e => rw [h2] at h; simp at h
      | ok others =>
        rw [h2] at h
        simp only at h
        cases h
        simp [ih others h2]

theorem score_all_length (p : String → String → String → PyVal) (q : String)
    (m : SchemaMetadata) :
    ∀ (l : List Combination) (r : List ScoredCombination),
      score_all p q m l = .ok r → r.length = l.length := by
  intro l
  induction l with
  | nil =>
    intro r h
    simp only [score_all] at h
    cases h
    rfl
  | cons c rest ih =>
    intro r h
    simp only [score_all] at h
    cases h1 : score_one_combo p q m c with
    | error e => rw [h1] at h; simp at h
    | ok s =>
      rw [h1] at h
      cases h2 : score_all p q m rest with
      | error e => rw [h2] at h; simp at h
      | ok others =>
        rw [h2] at h
        simp only at h
        cases h
        simp [ih others h2]

theorem heuristic_filter_length {combos : List Combination} {q : String}
    {m : SchemaMetadata} {hist : HistoricalData} {t10 : List Combination}
    (h : heuristic_filter combos q m hist = .ok t10) :
    t10.length ≤ 10 ∧ t10.length ≤ combos.length := by
  unfold heuristic_filter at h
  cases hs : score_heuristic_all q m hist combos with
  | error e => rw [hs] at h; simp at h
  | ok scored =>
    rw [hs] at h
    simp only at h
    cases h
    have hlen : scored.length = combos.length :=
      score_heuristic_all_length q m hist combos scored hs
    constructor
    · simp [List.length_take]
    · simp only [List.length_map, List.length_take, length_sortByScoreDesc,
        hlen]
      exact Nat.min_le_right 10 _

/-- C3: the Phase-1 heuristic score is
`0.30·simplicity + 0.20·join_quality + 0.40·column_coverage +
0.10·historical`, where the historical factor is disabled in the source (its
two lines are commented out) and therefore contributes the constant 0, while
the dormant `get_historical_success` hook returns the neutral 0.5 for
unknown combinations; simplicity is 1.0/0.8/0.6 for complexity 1/2/≥3 and
join quality is 1.0/0.9/0.7 for 0/1/≥2 joins. -/
theorem heuristic_score_formula :
    (∀ (combo : Combination) (question : String) (m : SchemaMetadata)
        (hist : HistoricalData) (cov : ℚ),
      calculate_column_coverage combo question m = .ok cov →
      calculate_heuristic_score combo question m hist =
        .ok (0.30 * simplicity_of combo + 0.20 * join_quality_of combo
          + 0.40 * cov + 0.10 * historical_contribution)) ∧
    historical_contribution = 0 ∧
    (∀ combo : Combination, get_historical_success combo [] = 0.5) ∧
    (∀ combo : Combination, combo.complexity = 1 → simplicity_of combo = 1.0) ∧
    (∀ combo : Combination, combo.complexity = 2 → simplicity_of combo = 0.8) ∧
    (∀ combo : Combination, 3 ≤ combo.complexity → simplicity_of combo = 0.6) ∧
    (∀ combo : Combination, combo.join_paths.length = 0 →
      join_quality_of combo = 1.0) ∧
    (∀ combo : Combination, combo.join_paths.length = 1 →
      join_quality_of combo = 0.9) ∧
    (∀ combo : Combination, 2 ≤ combo.join_paths.length →
      join_quality_of combo = 0.7) := by
  refine ⟨?_, rfl, ?_, ?_, ?_, ?_, ?_, ?_, ?_⟩
  · intro combo question m hist cov h
    unfold calculate_heuristic_score
    rw [h]
    simp [historical_contribution]
  · intro combo
    rfl
  · intro combo h
    unfold simplicity_of
    rw [if_pos h]
  · intro combo h
    unfold simplicity_of
    rw [if_neg (by omega), if_pos h]
  · intro combo h
    unfold simplicity_of
    rw [if_neg (by omega), if_neg (by omega)]
  · intro combo h
    unfold join_quality_of
    rw [if_pos h]
  · intro combo h
    unfold join_quality_of
    rw [if_neg (by omega), if_pos h]
  · intro combo h
    unfold join_quality_of
    rw [if_neg (by omega), if_neg (by omega)]

/-- C3 witness: the formula at the single-table `orders` combination with the
empty question (zero keywords, coverage 0.5). -/
theorem heuristic_score_formula_witness :
    calculate_heuristic_score combo_orders "" meta_ex [] =
      .ok (0.30 * simplicity_of combo_orders + 0.20 * join_quality_of combo_orders
        + 0.40 * 0.5 + 0.10 * historical_contribution) :=
  heuristic_score_formula.1 combo_orders "" meta_ex [] 0.5 (by rfl)

/-- C7: a successful run of the ranker (heuristic filter followed by model
rescoring) returns at most 10 results, no more than the input count, sorted
descending by the final model score, and — since the final sort is stable —
entries with any given final score appear in exactly their pre-sort
(stable input) order. -/
theorem ranker_output_shape
    (predict : String → String → String → PyVal)
    (combinations : List Combination) (question : String)
    (m : SchemaMetadata) (hist : HistoricalData)
    (out : List ScoredCombination)
    (h : graph_ranker predict combinations question m hist = .ok out) :
    out.length ≤ 10 ∧ out.length ≤ combinations.length ∧
    out.Pairwise (fun a b => b.score ≤ a.score) ∧
    ∃ top_10 pre,
      heuristic_filter combinations question m hist = .ok top_10 ∧
      score_all predict question m top_10 = .ok pre ∧
      out = sortByScoreDesc (fun sc => sc.score) pre ∧
      ∀ q : ℚ, out.filter (fun sc => sc.score = q)
        = pre.filter (fun sc => sc.score = q) := by
  unfold graph_ranker at h
  cases hf : heuristic_filter combinations question m hist with
  | error e => rw [hf] at h; simp at h
  | ok top_10 =>
    rw [hf] at h
    simp only at h
    unfold rank_with_model at h
    cases hs : score_all predict question m top_10 with
    | error e => rw [hs] at h; simp at h
    | ok pre =>
      rw [hs] at h
      simp only at h
      cases h
      obtain ⟨h10, hin⟩ := heuristic_filter_length hf
      have hpre : pre.length = top_10.length :=
        score_all_length predict question m top_10 pre hs
      have hlen : (sortByScoreDesc (fun sc => sc.score) pre).length
          = pre.length := length_sortByScoreDesc _ _
      refine ⟨by omega, by omega, sorted_sortByScoreDesc _ _,
        top_10, pre, rfl, hs, rfl, ?_⟩
      intro q
      exact filter_sortByScoreDesc (fun sc => sc.score) q pre

/-- C7 witness: bounds extracted from a complete concrete run of the ranker
on one combination with a string-returning scoring collaborator. -/
theorem ranker_output_shape_witness :
    ((graph_ranker predict_str_half [combo_orders] "" meta_ex
        []).toOption.getD []).length ≤ 10 ∧
    ((graph_ranker predict_str_half [combo_orders] "" meta_ex
        []).toOption.getD []).length ≤ 1 := by
  obtain ⟨h10, h1, -⟩ := ranker_output_shape predict_str_half [combo_orders]
    "" meta_ex []
    ((graph_ranker predict_str_half [combo_orders] "" meta_ex
      []).toOption.getD []) (by rfl)
  exact ⟨h10, by simpa using h1⟩

/-- C9: contrary to the skip-and-continue design, a combination referencing a
table absent from `schema_metadata` aborts the whole Phase-2 batch: the
unguarded `schema_metadata[table_name]` in `enrich_with_metadata` raises
`KeyError`, so `rank_with_model` on `[missing-combo, good-combo]` returns no
results at all, although the same call without the bad combination
succeeds. -/
theorem missing_table_enrichment_aborts_batch :
    enrich_with_metadata combo_missing meta_ex = .error (.keyError "missing") ∧
    rank_with_model predict_str_half [combo_missing, combo_orders] "" meta_ex
      = .error (.keyError "missing") ∧
    (∃ out, rank_with_model predict_str_half [combo_orders] "" meta_ex
      = .ok out) := by
  refine ⟨rfl, rfl, ?_⟩
  exact ⟨(rank_with_model predict_str_half [combo_orders] "" meta_ex).toOption.getD
    [], by rfl⟩

/-- C10: since `QueryScorePredictor.predict` returns a Python float
(`score.item()`), the post-processing `float(score.strip())` raises
`AttributeError` on the very first candidate of any non-empty batch —
Phase-2 rescoring can only complete when the collaborator returns a
float-parseable string instead. -/
theorem predict_float_strip_crash :
    (∀ (oracle : String → String → String → ℚ) (question : String)
        (m : SchemaMetadata) (c : Combination) (rest : List Combination),
      rank_with_model (fun q s j => predictor_predict (oracle q s j))
          (c :: rest) question m
        = .error (.attributeError "float object has no attribute strip")) ∧
    (∃ out, rank_with_model predict_str_half [pair_oc] "" meta_pair_ex
      = .ok out) := by
  constructor
  · intro oracle question m c rest
    rfl
  · exact ⟨(rank_with_model predict_str_half [pair_oc] ""
      meta_pair_ex).toOption.getD [], by rfl⟩

/-- C10 witness: the crash at a concrete one-candidate batch with a concrete
model-score oracle. -/
theorem predict_float_strip_crash_witness :
    rank_with_model (fun q s j => predictor_predict (oracle_ex q s j))
        [combo_orders] "" meta_ex
      = .error (.attributeError "float object has no attribute strip") :=
  predict_float_strip_crash.1 oracle_ex "" meta_ex combo_orders []

end Fastopsz
